import Mathlib

/-!
Shallow embedding of `ffmpeg_bitrate_stats/__main__.py` (the `BitrateStats`
class) and verification of the spec's claims about it.

Modelling conventions:
* Python floats are modelled as exact rationals (`ℚ`).
* Python values that can be a float, a numeric string (raw ffprobe JSON
  values are strings), the string `"NaN"`, or `None` are modelled by the
  sum type `PyVal`.  `PyVal.strNum q` stands for a decimal string whose
  `float()` value is `q`.
* Fallible Python code (exceptions) is modelled with `Except PyErr`.
* `float("NaN")` yields an IEEE NaN, which a rational-valued embedding
  cannot represent; `pyFloat` maps `PyVal.strNaN` to a dedicated error
  value, and every theorem touching that conversion hypothesises numeric
  inputs so that this corner is never relied upon.
-/

namespace BitrateStats

/-- Python runtime errors that the modelled code can raise. -/
inductive PyErr where
  | typeError
  | valueError
  | zeroDivisionError
  | indexError
  | nanValue
deriving DecidableEq, Repr

/-- A Python value occurring in the packet dictionaries: a float, a numeric
string (raw ffprobe JSON value, `float()`-able), the literal string `"NaN"`,
or `None`. -/
inductive PyVal where
  | num (q : ℚ)
  | strNum (q : ℚ)
  | strNaN
  | none_
deriving DecidableEq, Repr

/-- Whether a `PyVal` is an actual Python float (numeric). -/
def PyVal.isNum : PyVal → Bool
  | .num _ => true
  | _ => false

/-- Python `float(x)`.  Floats pass through, numeric strings parse, `None`
raises `TypeError`.  `float("NaN")` really returns an IEEE NaN, which this
rational model cannot represent: it is mapped to the `nanValue` error and
kept out of every theorem's scope (normalized packets never carry a
`"NaN"` string in a position that is converted). -/
def pyFloat : PyVal → Except PyErr ℚ
  | .num q => .ok q
  | .strNum q => .ok q
  | .strNaN => .error .nanValue
  | .none_ => .error .typeError

/-- Python `x < y` on `PyVal`s.  float/float compares numerically;
`"NaN" < "NaN"` is a string comparison yielding `False`; comparing a float
(or `None`) with a string raises `TypeError`.  Comparing two numeric
strings would be lexicographic; that case is unreachable for the `pts`
field (which is always a float or the string `"NaN"`) and is modelled as
an error. -/
def pyLt : PyVal → PyVal → Except PyErr Bool
  | .num a, .num b => .ok (a < b)
  | .strNaN, .strNaN => .ok false
  | _, _ => .error .typeError

/-- Python `x - y` on `PyVal`s: only float minus float succeeds; string or
`None` operands raise `TypeError`. -/
def pySub : PyVal → PyVal → Except PyErr ℚ
  | .num a, .num b => .ok (a - b)
  | _, _ => .error .typeError

/-- Python `a / b` on floats: raises `ZeroDivisionError` on a zero
denominator. -/
def pyDiv (a b : ℚ) : Except PyErr ℚ :=
  if b = 0 then .error .zeroDivisionError else .ok (a / b)

/-- Python `sum(...)` over a list of `PyVal`s (starting from `0`): adding a
string or `None` to a number raises `TypeError`. -/
def pySumVal : List PyVal → Except PyErr ℚ
  | [] => .ok 0
  | v :: rest =>
    match v with
    | .num q =>
      match pySumVal rest with
      | .ok s => .ok (q + s)
      | .error e => .error e
    | _ => .error .typeError

/-- Python `max(l)` over floats: `ValueError` on an empty list. -/
def pyMax : List ℚ → Except PyErr ℚ
  | [] => .error .valueError
  | x :: xs => .ok (xs.foldl max x)

/-- Python `min(l)` over floats: `ValueError` on an empty list. -/
def pyMin : List ℚ → Except PyErr ℚ
  | [] => .error .valueError
  | x :: xs => .ok (xs.foldl min x)

/-- `np.mean` on a list of floats, as used on the (always non-empty at the
call site, since `max`/`min` ran first) chunk series: sum divided by
length.  On an empty list numpy would return NaN; with rational division
this definition returns `0` there, a corner no theorem relies on. -/
def npMean (l : List ℚ) : ℚ := l.sum / l.length

/-- Round a rational to the nearest integer, ties to even — the behaviour
of Python's `round`. -/
def roundHalfEven (x : ℚ) : ℤ :=
  if x - ⌊x⌋ < 1/2 then ⌊x⌋
  else if 1/2 < x - ⌊x⌋ then ⌊x⌋ + 1
  else if Even ⌊x⌋ then ⌊x⌋ else ⌊x⌋ + 1

/-- Python `round(x, n)` on floats, modelled as decimal rounding of the
exact rational value (half-to-even). -/
def pyRound (x : ℚ) (n : ℕ) : ℚ :=
  (roundHalfEven (x * 10 ^ n) : ℚ) / 10 ^ n

/-- A raw packet record as parsed from the ffprobe JSON (source: the
`info` list in `_calculate_frame_sizes`).  The JSON carries timing fields
as decimal strings; `pts_time`/`duration_time` here hold the parsed
rational value of those strings when the key is present. -/
structure RawPacket where
  pts_time : Option ℚ
  duration_time : Option ℚ
  size : ℤ
  flags : String
deriving DecidableEq, Repr

/-- A normalized packet dictionary (source: the entries appended to `ret`
in `_calculate_frame_sizes`). -/
structure Packet where
  n : ℕ
  frame_type : String
  pts : PyVal
  size : ℤ
  duration : PyVal
deriving DecidableEq, Repr

/-- The numeric value of a packet's `pts` when it is a float (used only in
theorem statements under a numeric-pts hypothesis). -/
def ptsQ (p : Packet) : ℚ :=
  match p.pts with
  | .num q => q
  | _ => 0

/-- Source: `default_duration = next((x["duration_time"] for x in info if
"duration_time" in x.keys()), "NaN")` — the first declared `duration_time`
RAW value (a string), or the string `"NaN"`.  `some q` stands for the raw
string parsing to `q`; `none` stands for `"NaN"`. -/
def defaultDuration : List RawPacket → Option ℚ
  | [] => none
  | r :: rest =>
    match r.duration_time with
    | some q => some q
    | none => defaultDuration rest

/-- Source: the dictionary built for one `packet_info` in the loop of
`_calculate_frame_sizes`.  A declared duration is `float()`-converted; a
missing one inherits `default_duration`, which is the RAW string (no
`float()` is applied to it). -/
def mkPacket (idx : ℕ) (r : RawPacket) (dflt : Option ℚ) : Packet :=
  { n := idx
    frame_type := if r.flags = "K_" then "I" else "Non-I"
    pts := match r.pts_time with
           | some q => .num q
           | none => .strNaN
    size := r.size
    duration := match r.duration_time with
                | some q => .num q
                | none =>
                  match dflt with
                  | some q => .strNum q
                  | none => .strNaN }

/-- Source: the loop body of `_fix_durations`, recursing over adjacent
pairs.  Carries the running `last_duration` and the count of emitted
warnings.  The final element receives `last_duration` (Python `None` when
the list had a single element). -/
def fixGo : List Packet → Option ℚ → ℕ → Except PyErr (List Packet × ℕ)
  | [], _, w => .ok ([], w)
  | [p], last, w =>
    .ok ([{ p with duration := match last with
                               | some d => PyVal.num d
                               | none => PyVal.none_ }], w)
  | p :: q :: rest, _, w =>
    match pyLt q.pts p.pts with
    | .error e => .error e
    | .ok lt =>
      let w1 := if lt then w + 1 else w
      match pySub q.pts p.pts with
      | .error e => .error e
      | .ok d =>
        match fixGo (q :: rest) (some d) w1 with
        | .error e => .error e
        | .ok (tail, wf) => .ok ({ p with duration := PyVal.num d } :: tail, wf)

/-- Source: `_fix_durations`.  On an empty list the final
`ret[-1]["duration"] = last_duration` raises `IndexError`.  The second
component counts the non-fatal warnings printed to stderr. -/
def fixDurations (ret : List Packet) : Except PyErr (List Packet × ℕ) :=
  match ret with
  | [] => .error .indexError
  | _ :: _ => fixGo ret none 0

/-- The packet-building loop of `_calculate_frame_sizes` (`idx` starts at
`1` and is incremented per record). -/
def mkPackets (idx : ℕ) (dflt : Option ℚ) : List RawPacket → List Packet
  | [] => []
  | r :: rest => mkPacket idx r dflt :: mkPackets (idx + 1) dflt rest

/-- Source: `_calculate_frame_sizes` after the JSON parse — builds the
packet dictionaries and runs the duration repair pass exactly when no
record declared a duration.  Returns the packet list and the warning
count. -/
def calculateFrameSizes (info : List RawPacket) : Except PyErr (List Packet × ℕ) :=
  let dflt := defaultDuration info
  let ret := mkPackets 1 dflt info
  match dflt with
  | none => fixDurations ret
  | some _ => .ok (ret, 0)

/-- Source: the `gop` branch of `_collect_chunks`.  `curr` is `curr_list`;
the final `aggregation_chunks.append(curr_list)` is unconditional. -/
def gopChunksGo : List Packet → List Packet → List (List Packet)
  | [], curr => [curr]
  | f :: rest, curr =>
    if f.frame_type ≠ "I" then gopChunksGo rest (curr ++ [f])
    else if curr.isEmpty then gopChunksGo rest [f]
    else curr :: gopChunksGo rest [f]

/-- GOP aggregation chunks, before the `len(x) > 1` filter. -/
def gopChunks (frames : List Packet) : List (List Packet) :=
  gopChunksGo frames []

/-- Source: the `else` (time) branch of `_collect_chunks`.  `curr` is
`curr_list` and `agg` is `agg_time`; `float(frame["duration"])` can raise.
The final `aggregation_chunks.append(curr_list)` is unconditional. -/
def timeChunksGo (cs : ℚ) : List Packet → List Packet → ℚ → Except PyErr (List (List Packet))
  | [], curr, _ => .ok [curr]
  | f :: rest, curr, agg =>
    if agg < cs then
      match pyFloat f.duration with
      | .error e => .error e
      | .ok d => timeChunksGo cs rest (curr ++ [f]) (agg + d)
    else
      match pyFloat f.duration with
      | .error e => .error e
      | .ok d =>
        match timeChunksGo cs rest [f] d with
        | .error e => .error e
        | .ok tail => .ok (if curr.isEmpty then tail else curr :: tail)

/-- Time aggregation chunks, before the `len(x) > 1` filter. -/
def timeChunks (frames : List Packet) (cs : ℚ) : Except PyErr (List (List Packet)) :=
  timeChunksGo cs frames [] 0

/-- The pre-filter chunk list for the configured aggregation mode
(source: `_collect_chunks` up to the list comprehension). -/
def aggregationChunks (frames : List Packet) (agg : String) (cs : ℚ) :
    Except PyErr (List (List Packet)) :=
  if agg = "gop" then .ok (gopChunks frames) else timeChunks frames cs

/-- Total size in bytes of a list of packets (source: `sum(f["size"] for f
in frame_list)` / `... for f in self.frames`). -/
def sumSizes (l : List Packet) : ℤ :=
  (l.map (fun p => p.size)).sum

/-- Source: `sum(float(curr) - float(prev) for curr, prev in
zip(times[1:], times))` in `_bitrate_for_frame_list`. -/
def sumDeltaTime : List PyVal → Except PyErr ℚ
  | t0 :: t1 :: rest =>
    match pyFloat t1 with
    | .error e => .error e
    | .ok c =>
      match pyFloat t0 with
      | .error e => .error e
      | .ok p =>
        match sumDeltaTime (t1 :: rest) with
        | .error e => .error e
        | .ok r => .ok (c - p + r)
  | _ => .ok 0

/-- The `len(frame_list) > 1` body of `_bitrate_for_frame_list`:
`((size * 8) / 1000) / sum_delta_time`, with Python's division raising
`ZeroDivisionError` on a zero denominator. -/
def bitrateOfChunk (l : List Packet) : Except PyErr ℚ :=
  match sumDeltaTime (l.map (fun p => p.pts)) with
  | .error e => .error e
  | .ok sd => pyDiv ((sumSizes l * 8 : ℚ) / 1000) sd

/-- Source: `_bitrate_for_frame_list`.  Falls off the end (Python returns
`None`) when the list has fewer than two frames. -/
def bitrateForFrameList (l : List Packet) : Except PyErr (Option ℚ) :=
  if l.length > 1 then
    match bitrateOfChunk l with
    | .error e => .error e
    | .ok b => .ok (some b)
  else .ok none

/-- Sequential evaluation of `_bitrate_for_frame_list` over the filtered
chunk lists (the body of the list comprehension in `_collect_chunks`),
propagating the first exception. -/
def bitrateSeries : List (List Packet) → Except PyErr (List ℚ)
  | [] => .ok []
  | x :: xs =>
    match bitrateOfChunk x with
    | .error e => .error e
    | .ok b =>
      match bitrateSeries xs with
      | .error e => .error e
      | .ok bs => .ok (b :: bs)

/-- Source: `_collect_chunks` — the pre-filter chunk lists, then the
comprehension `[ _bitrate_for_frame_list(x) for x in aggregation_chunks if
len(x) > 1 ]`.  Within the comprehension the guard makes the `len > 1`
branch of `_bitrate_for_frame_list` the one taken, so the series elements
are the plain bitrates (`bitrateOfChunk`); the bridging lemma
`bitrateForFrameList_of_long` records this. -/
def collectChunks (frames : List Packet) (agg : String) (cs : ℚ) :
    Except PyErr (List ℚ) :=
  match aggregationChunks frames agg cs with
  | .error e => .error e
  | .ok ac => bitrateSeries (ac.filter fun x => x.length > 1)

/-- Source: `_calculate_duration` — `round(sum(f["duration"] for f in
self.frames), 2)`.  Note the hard-coded rounding to 2 decimal places. -/
def calculateDuration (frames : List Packet) : Except PyErr ℚ :=
  match pySumVal (frames.map (fun p => p.duration)) with
  | .error e => .error e
  | .ok s => .ok (pyRound s 2)

/-- Source: `_calculate_fps` — `len(self.frames) / self.duration`,
unguarded division. -/
def calculateFps (frames : List Packet) (duration : ℚ) : Except PyErr ℚ :=
  pyDiv (frames.length : ℚ) duration

/-- Source: `_calculate_max_min_bitrate` — `max(...)` then `min(...)` over
the chunk series. -/
def calculateMaxMinBitrate (chunks : List ℚ) : Except PyErr (ℚ × ℚ) :=
  match pyMax chunks with
  | .error e => .error e
  | .ok maxB =>
    match pyMin chunks with
    | .error e => .error e
    | .ok minB => .ok (maxB, minB)

/-- The run configuration held by `BitrateStats.__init__`. -/
structure Config where
  stream_type : String
  aggregation : String
  chunk_size : ℚ
deriving DecidableEq, Repr

/-- The assembled output dictionary of `_assemble_bitrate_statistics`
(the input-file identifier, a plain pass-through string, is omitted). -/
structure SummaryRecord where
  stream_type : String
  avg_fps : ℚ
  num_frames : ℕ
  avg_bitrate : ℚ
  avg_bitrate_over_chunks : ℚ
  max_bitrate : ℚ
  min_bitrate : ℚ
  max_bitrate_factor : ℚ
  bitrate_per_chunk : List ℚ
  aggregation : String
  chunk_size : ℚ
  duration : ℚ
deriving DecidableEq, Repr

/-- Source: `_assemble_bitrate_statistics`.  `avg_bitrate` divides by the
(already 2-rounded) total duration; `max_bitrate_factor` divides by
`avg_bitrate`; every scalar field is rounded to `rounding_factor = 3`
decimals, including the already-rounded duration. -/
def assembleBitrateStatistics (cfg : Config) (frames : List Packet)
    (chunks : List ℚ) (duration fps maxB minB : ℚ) :
    Except PyErr SummaryRecord :=
  match pyDiv ((sumSizes frames * 8 : ℚ) / 1000) duration with
  | .error e => .error e
  | .ok avgB =>
    let avgC := npMean chunks
    match pyDiv maxB avgB with
    | .error e => .error e
    | .ok factor =>
      .ok { stream_type := cfg.stream_type
            avg_fps := pyRound fps 3
            num_frames := frames.length
            avg_bitrate := pyRound avgB 3
            avg_bitrate_over_chunks := pyRound avgC 3
            max_bitrate := pyRound maxB 3
            min_bitrate := pyRound minB 3
            max_bitrate_factor := pyRound factor 3
            bitrate_per_chunk := chunks.map (fun b => pyRound b 3)
            aggregation := cfg.aggregation
            chunk_size := cfg.chunk_size
            duration := pyRound duration 3 }

/-- The statistics pipeline of `calculate_statistics` after the frame list
is available: duration, fps, chunk collection, max/min, assembly, in the
source's order, propagating the first raised exception. -/
def statsFromFrames (frames : List Packet) (cfg : Config) :
    Except PyErr SummaryRecord :=
  match calculateDuration frames with
  | .error e => .error e
  | .ok duration =>
    match calculateFps frames duration with
    | .error e => .error e
    | .ok fps =>
      match collectChunks frames cfg.aggregation cfg.chunk_size with
      | .error e => .error e
      | .ok chunks =>
        match calculateMaxMinBitrate chunks with
        | .error e => .error e
        | .ok (maxB, minB) =>
          assembleBitrateStatistics cfg frames chunks duration fps maxB minB

/-- Source: `calculate_statistics` — normalization followed by the
statistics pipeline. -/
def calculateStatistics (info : List RawPacket) (cfg : Config) :
    Except PyErr SummaryRecord :=
  match calculateFrameSizes info with
  | .error e => .error e
  | .ok (frames, _) => statsFromFrames frames cfg

/-- Source: the validation sequence in `BitrateStats.__init__`.  Returns
`true` when the configuration passes all checks (no `sys.exit(1)`).  The
chunk-size check is `if chunk_size and chunk_size < 0`, i.e. it is skipped
entirely when `chunk_size` is falsy (zero). -/
def configAccepted (stream_type aggregation : String) (chunk_size : ℚ) : Bool :=
  if ¬(stream_type = "audio" ∨ stream_type = "video") then false
  else if ¬(aggregation = "time" ∨ aggregation = "gop") then false
  else if aggregation = "gop" ∧ stream_type = "audio" then false
  else if chunk_size ≠ 0 ∧ chunk_size < 0 then false
  else true

/-- Sum of the `float()`-converted durations of a packet list (used to
state the time-window bounds; matches the conversions the time chunker
performs). -/
def floatSum : List Packet → Except PyErr ℚ
  | [] => .ok 0
  | p :: rest =>
    match pyFloat p.duration with
    | .error e => .error e
    | .ok d =>
      match floatSum rest with
      | .error e => .error e
      | .ok s => .ok (d + s)

/-- The number of adjacent packet pairs whose pts strictly decreases —
exactly the pairs for which `_fix_durations` prints its warning (stated
via `ptsQ`, so meaningful under a numeric-pts hypothesis). -/
def strictDecreaseCount : List Packet → ℕ
  | p :: q :: rest => (if ptsQ q < ptsQ p then 1 else 0) + strictDecreaseCount (q :: rest)
  | _ => 0

/-- The packet list the repair pass is expected to produce (spec §4.1,
stated via `ptsQ` under a numeric-pts hypothesis): every non-final packet
gets the raw forward pts difference as its duration — unclamped, possibly
zero or negative — and the final packet reuses the preceding delta
(`None` when there is none). -/
def fixedBySpec : List Packet → Option ℚ → List Packet
  | [], _ => []
  | [p], last =>
    [{ p with duration := match last with
                          | some d => PyVal.num d
                          | none => PyVal.none_ }]
  | p :: q :: rest, _ =>
    { p with duration := PyVal.num (ptsQ q - ptsQ p) } ::
      fixedBySpec (q :: rest) (some (ptsQ q - ptsQ p))

/-! ### Concrete example inputs used by the claim witnesses and
counterexamples -/

/-- Three declared-duration packets: pts 0, 1, 2 s; duration 0.1 s each;
1000 bytes each; first one a keyframe. -/
def exInfoA : List RawPacket :=
  [{ pts_time := some 0, duration_time := some (1/10), size := 1000, flags := "K_" },
   { pts_time := some 1, duration_time := some (1/10), size := 1000, flags := "__" },
   { pts_time := some 2, duration_time := some (1/10), size := 1000, flags := "__" }]

/-- The summary record the pipeline produces on `exInfoA` in time mode
with a 1-second window. -/
def exRecA : SummaryRecord :=
  { stream_type := "video", avg_fps := 10, num_frames := 3, avg_bitrate := 80,
    avg_bitrate_over_chunks := 12, max_bitrate := 12, min_bitrate := 12,
    max_bitrate_factor := 3/20, bitrate_per_chunk := [12],
    aggregation := "time", chunk_size := 1, duration := 3/10 }

/-- Two normalized packets with 1-second durations (time mode with a
1-second window splits them into two singleton chunks). -/
def exC1frames : List Packet :=
  [{ n := 1, frame_type := "I", pts := .num 0, size := 1000, duration := .num 1 },
   { n := 2, frame_type := "Non-I", pts := .num 1, size := 1000, duration := .num 1 }]

/-- The pre-filter time chunks of `exC1frames` with `chunk_size = 1`. -/
def exC1chunks : List (List Packet) :=
  [[{ n := 1, frame_type := "I", pts := .num 0, size := 1000, duration := .num 1 }],
   [{ n := 2, frame_type := "Non-I", pts := .num 1, size := 1000, duration := .num 1 }]]

/-- Three normalized packets with 0.6-second durations: with a 1-second
window the first chunk closes after two packets. -/
def exC2frames : List Packet :=
  [{ n := 1, frame_type := "I", pts := .num 0, size := 1000, duration := .num (3/5) },
   { n := 2, frame_type := "Non-I", pts := .num 1, size := 1000, duration := .num (3/5) },
   { n := 3, frame_type := "Non-I", pts := .num 2, size := 1000, duration := .num (3/5) }]

/-- The first (closed) time chunk of `exC2frames`. -/
def exC2chunk : List Packet :=
  [{ n := 1, frame_type := "I", pts := .num 0, size := 1000, duration := .num (3/5) },
   { n := 2, frame_type := "Non-I", pts := .num 1, size := 1000, duration := .num (3/5) }]

/-- The pre-filter time chunks of `exC2frames` with `chunk_size = 1`. -/
def exC2chunks : List (List Packet) :=
  [exC2chunk,
   [{ n := 3, frame_type := "Non-I", pts := .num 2, size := 1000, duration := .num (3/5) }]]

/-- Two raw records where only the first declares a `duration_time`: the
second must inherit the default. -/
def exC3info : List RawPacket :=
  [{ pts_time := some 0, duration_time := some (1/10), size := 1000, flags := "K_" },
   { pts_time := some 1, duration_time := none, size := 1000, flags := "__" }]

/-- What the normalizer actually produces on `exC3info`: the second
packet's duration is the RAW STRING default (`strNum`), not a float. -/
def exC3packets : List Packet :=
  [{ n := 1, frame_type := "I", pts := .num 0, size := 1000, duration := .num (1/10) },
   { n := 2, frame_type := "Non-I", pts := .num 1, size := 1000, duration := .strNum (1/10) }]

/-- A single raw record with no declared duration: the repair pass leaves
`last_duration = None` and assigns it. -/
def exC3single : List RawPacket :=
  [{ pts_time := some 0, duration_time := none, size := 1000, flags := "K_" }]

/-- The normalizer output on `exC3single`: the packet's duration is the
Python value `None`. -/
def exC3singleOut : List Packet :=
  [{ n := 1, frame_type := "I", pts := .num 0, size := 1000, duration := .none_ }]

/-- Two packets with EQUAL presentation times (a non-increasing adjacent
pair), fed to the repair pass. -/
def exC4in : List Packet :=
  [{ n := 1, frame_type := "I", pts := .num 5, size := 1000, duration := .strNaN },
   { n := 2, frame_type := "Non-I", pts := .num 5, size := 1000, duration := .strNaN }]

/-- The repair output on `exC4in`: both durations become the zero delta. -/
def exC4out : List Packet :=
  [{ n := 1, frame_type := "I", pts := .num 5, size := 1000, duration := .num 0 },
   { n := 2, frame_type := "Non-I", pts := .num 5, size := 1000, duration := .num 0 }]

/-- A two-packet chunk whose presentation times coincide (zero pts-delta
sum). -/
def exC5chunk : List Packet :=
  [{ n := 1, frame_type := "I", pts := .num 2, size := 1000, duration := .num 1 },
   { n := 2, frame_type := "Non-I", pts := .num 2, size := 1000, duration := .num 1 }]

/-- A single normalized packet — too short for any chunk to survive the
`>= 2`-packet filter. -/
def exC6frames : List Packet :=
  [{ n := 1, frame_type := "I", pts := .num 0, size := 1000, duration := .num (1/10) }]

/-- The default configuration: video stream, time aggregation, 1-second
window. -/
def exCfgTime : Config :=
  { stream_type := "video", aggregation := "time", chunk_size := 1 }

/-- Two packets whose durations are all zero: the total duration rounds
to zero. -/
def exC10frames : List Packet :=
  [{ n := 1, frame_type := "I", pts := .num 0, size := 1000, duration := .num 0 },
   { n := 2, frame_type := "Non-I", pts := .num 1, size := 1000, duration := .num 0 }]

/-- The normalizer output on `exInfoA` (all durations declared, hence
numeric). -/
def exFramesA : List Packet :=
  [{ n := 1, frame_type := "I", pts := .num 0, size := 1000, duration := .num (1/10) },
   { n := 2, frame_type := "Non-I", pts := .num 1, size := 1000, duration := .num (1/10) },
   { n := 3, frame_type := "Non-I", pts := .num 2, size := 1000, duration := .num (1/10) }]

/-- Two raw records with declared durations of 0.062 s each: the duration
sum 0.124 rounds differently at 2 and at 3 decimal places. -/
def exC8info : List RawPacket :=
  [{ pts_time := some 0, duration_time := some (31/500), size := 1000, flags := "K_" },
   { pts_time := some 1, duration_time := some (31/500), size := 1000, flags := "__" }]

/-- The normalizer output on `exC8info`. -/
def exC8frames : List Packet :=
  [{ n := 1, frame_type := "I", pts := .num 0, size := 1000, duration := .num (31/500) },
   { n := 2, frame_type := "Non-I", pts := .num 1, size := 1000, duration := .num (31/500) }]

/-- The summary record the pipeline produces on `exC8info` in time mode:
its `duration` field is `0.12` (the 2-decimal rounding), although the
exact duration sum is `0.124`. -/
def exRecC8 : SummaryRecord :=
  { stream_type := "video", avg_fps := 16667/1000, num_frames := 2,
    avg_bitrate := 133333/1000, avg_bitrate_over_chunks := 16,
    max_bitrate := 16, min_bitrate := 16, max_bitrate_factor := 3/25,
    bitrate_per_chunk := [16], aggregation := "time", chunk_size := 1,
    duration := 3/25 }

end BitrateStats

/-! ## Theorems -/

namespace BitrateStats

/-! ### Chunker lemmas -/

lemma gopChunksGo_flatten (l : List Packet) :
    ∀ curr : List Packet, (gopChunksGo l curr).flatten = curr ++ l := by
  induction l with
  | nil => intro curr; simp [gopChunksGo]
  | cons f rest ih =>
    intro curr
    simp only [gopChunksGo]
    by_cases h : f.frame_type ≠ "I"
    · rw [if_pos h, ih]; simp
    · rw [if_neg h]
      cases curr with
      | nil => simp [ih]
      | cons a as => simp [ih]

lemma timeChunksGo_flatten (cs : ℚ) (l : List Packet) :
    ∀ (curr : List Packet) (agg : ℚ) (chunks : List (List Packet)),
      timeChunksGo cs l curr agg = .ok chunks → chunks.flatten = curr ++ l := by
  induction l with
  | nil =>
    intro curr agg chunks h
    simp only [timeChunksGo, Except.ok.injEq] at h
    subst h; simp
  | cons f rest ih =>
    intro curr agg chunks h
    simp only [timeChunksGo] at h
    by_cases hlt : agg < cs
    · rw [if_pos hlt] at h
      cases hd : pyFloat f.duration with
      | error e => simp [hd] at h
      | ok d =>
        simp only [hd] at h
        have := ih (curr ++ [f]) (agg + d) chunks h
        rw [this]; simp
    · rw [if_neg hlt] at h
      cases hd : pyFloat f.duration with
      | error e => simp [hd] at h
      | ok d =>
        simp only [hd] at h
        cases ht : timeChunksGo cs rest [f] d with
        | error e => simp [ht] at h
        | ok tail =>
          simp only [ht, Except.ok.injEq] at h
          have htail := ih [f] d tail ht
          cases curr with
          | nil => subst h; simpa using htail
          | cons a as =>
            subst h
            simp only [List.isEmpty_cons, Bool.false_eq_true, if_false,
              List.flatten_cons]
            simp [htail]

lemma timeChunksGo_ne_nil (cs : ℚ) (l : List Packet) :
    ∀ (curr : List Packet) (agg : ℚ) (chunks : List (List Packet)),
      timeChunksGo cs l curr agg = .ok chunks → chunks ≠ [] := by
  induction l with
  | nil =>
    intro curr agg chunks h
    simp only [timeChunksGo, Except.ok.injEq] at h
    subst h; simp
  | cons f rest ih =>
    intro curr agg chunks h
    simp only [timeChunksGo] at h
    by_cases hlt : agg < cs
    · rw [if_pos hlt] at h
      cases hd : pyFloat f.duration with
      | error e => simp [hd] at h
      | ok d =>
        simp only [hd] at h
        exact ih _ _ _ h
    · rw [if_neg hlt] at h
      cases hd : pyFloat f.duration with
      | error e => simp [hd] at h
      | ok d =>
        simp only [hd] at h
        cases ht : timeChunksGo cs rest [f] d with
        | error e => simp [ht] at h
        | ok tail =>
          simp only [ht, Except.ok.injEq] at h
          have htail := ih [f] d tail ht
          cases curr with
          | nil => subst h; simpa using htail
          | cons a as => subst h; simp

lemma floatSum_concat (l : List Packet) (p : Packet) (a d : ℚ)
    (h1 : floatSum l = .ok a) (h2 : pyFloat p.duration = .ok d) :
    floatSum (l ++ [p]) = .ok (a + d) := by
  induction l generalizing a with
  | nil =>
    simp only [floatSum, Except.ok.injEq] at h1
    simp [floatSum, h2, ← h1]
  | cons q rest ih =>
    simp only [floatSum] at h1
    cases hq : pyFloat q.duration with
    | error e => simp [hq] at h1
    | ok dq =>
      simp only [hq] at h1
      cases hr : floatSum rest with
      | error e => simp [hr] at h1
      | ok s =>
        simp only [hr, Except.ok.injEq] at h1
        simp only [List.cons_append, floatSum, hq, List.append_eq,
          ih s hr, Except.ok.injEq]
        rw [← h1]; ring

lemma floatSum_singleton (p : Packet) (d : ℚ) (h : pyFloat p.duration = .ok d) :
    floatSum [p] = .ok d := by
  simp [floatSum, h]

lemma timeChunksGo_windows (cs : ℚ) (hcs : 0 < cs) (l : List Packet) :
    ∀ (curr : List Packet) (agg : ℚ) (chunks : List (List Packet)),
      floatSum curr = .ok agg →
      (∃ s0, floatSum curr.dropLast = .ok s0 ∧ s0 < cs) →
      timeChunksGo cs l curr agg = .ok chunks →
      ∀ c ∈ chunks.dropLast,
        (∃ s, floatSum c = .ok s ∧ cs ≤ s) ∧
        (∃ s0, floatSum c.dropLast = .ok s0 ∧ s0 < cs) := by
  induction l with
  | nil =>
    intro curr agg chunks _ _ h
    simp only [timeChunksGo, Except.ok.injEq] at h
    subst h
    simp
  | cons f rest ih =>
    intro curr agg chunks hsum hinv h
    simp only [timeChunksGo] at h
    by_cases hlt : agg < cs
    · rw [if_pos hlt] at h
      cases hd : pyFloat f.duration with
      | error e => simp [hd] at h
      | ok d =>
        simp only [hd] at h
        refine ih (curr ++ [f]) (agg + d) chunks ?_ ?_ h
        · exact floatSum_concat curr f agg d hsum hd
        · refine ⟨agg, ?_, hlt⟩
          rw [List.dropLast_concat]
          exact hsum
    · rw [if_neg hlt] at h
      cases hd : pyFloat f.duration with
      | error e => simp [hd] at h
      | ok d =>
        simp only [hd] at h
        cases ht : timeChunksGo cs rest [f] d with
        | error e => simp [ht] at h
        | ok tail =>
          simp only [ht, Except.ok.injEq] at h
          have hrec := ih [f] d tail (floatSum_singleton f d hd)
            ⟨0, by simp [floatSum], hcs⟩ ht
          cases curr with
          | nil => subst h; simpa using hrec
          | cons a as =>
            subst h
            simp only [List.isEmpty_cons, Bool.false_eq_true, if_false]
            intro c hc
            cases htail : tail with
            | nil => exact absurd htail (timeChunksGo_ne_nil cs rest [f] d tail ht)
            | cons t ts =>
              subst htail
              rw [List.dropLast_cons₂] at hc
              rcases List.mem_cons.mp hc with hceq | hcmem
              · subst hceq
                constructor
                · exact ⟨agg, hsum, le_of_not_lt hlt⟩
                · exact hinv
              · exact hrec c hcmem

/-! ### C1 and C2 -/

/-- C1: for every normalized packet sequence and for both aggregation
modes (`gop`, and `time` for any chunk size), the concatenation in order
of the chunk packet-lists produced by the chunker before the `>= 2`-packet
filter equals the input packet sequence exactly — no packet duplicated,
omitted, or reordered. -/
theorem chunk_concat_partition (frames : List Packet) (cs : ℚ) :
    (gopChunks frames).flatten = frames ∧
    (∀ chunks, timeChunks frames cs = .ok chunks → chunks.flatten = frames) := by
  constructor
  · simpa using gopChunksGo_flatten frames []
  · intro chunks h
    simpa using timeChunksGo_flatten cs frames [] 0 chunks h

/-- Witness for `chunk_concat_partition` at a concrete two-packet input in
both modes. -/
theorem chunk_concat_partition_witness :
    (gopChunks exC1frames).flatten = exC1frames ∧
    exC1chunks.flatten = exC1frames :=
  ⟨(chunk_concat_partition exC1frames 1).1,
   (chunk_concat_partition exC1frames 1).2 exC1chunks (by
      norm_num [timeChunks, timeChunksGo, pyFloat, exC1frames, exC1chunks])⟩

/-- C2: in time aggregation mode with a positive chunk size, every chunk
produced by the chunker except the last one has member durations summing
to at least `chunk_size`, while the sum excluding the chunk's last member
stays below `chunk_size`.  (Durations are summed after the `float()`
conversion the chunker itself performs.) -/
theorem time_window_bounds (frames : List Packet) (cs : ℚ)
    (chunks : List (List Packet)) (hcs : 0 < cs)
    (h : timeChunks frames cs = .ok chunks) :
    ∀ c ∈ chunks.dropLast,
      (∃ s, floatSum c = .ok s ∧ cs ≤ s) ∧
      (∃ s0, floatSum c.dropLast = .ok s0 ∧ s0 < cs) :=
  timeChunksGo_windows cs hcs frames [] 0 chunks (by simp [floatSum])
    ⟨0, by simp [floatSum], hcs⟩ h

/-- Witness for `time_window_bounds`: the first chunk of a concrete
three-packet input (durations 0.6 s, window 1 s). -/
theorem time_window_bounds_witness :
    (∃ s, floatSum exC2chunk = .ok s ∧ (1 : ℚ) ≤ s) ∧
    (∃ s0, floatSum exC2chunk.dropLast = .ok s0 ∧ s0 < (1 : ℚ)) :=
  time_window_bounds exC2frames 1 exC2chunks (by norm_num)
    (by norm_num [timeChunks, timeChunksGo, pyFloat, exC2frames, exC2chunks, exC2chunk])
    exC2chunk (by simp [exC2chunks, exC2chunk])

/-! ### Rounding lemmas -/

lemma roundHalfEven_intCast (k : ℤ) : roundHalfEven (k : ℚ) = k := by
  simp only [roundHalfEven, Int.floor_intCast, sub_self]
  norm_num

lemma roundHalfEven_ge_floor (x : ℚ) : ⌊x⌋ ≤ roundHalfEven x := by
  simp only [roundHalfEven]
  split_ifs <;> linarith

lemma roundHalfEven_le_floor_add_one (x : ℚ) : roundHalfEven x ≤ ⌊x⌋ + 1 := by
  simp only [roundHalfEven]
  split_ifs <;> linarith

lemma roundHalfEven_mono {x y : ℚ} (h : x ≤ y) :
    roundHalfEven x ≤ roundHalfEven y := by
  rcases lt_or_eq_of_le (Int.floor_mono h) with hlt | heq
  · calc roundHalfEven x ≤ ⌊x⌋ + 1 := roundHalfEven_le_floor_add_one x
      _ ≤ ⌊y⌋ := by linarith
      _ ≤ roundHalfEven y := roundHalfEven_ge_floor y
  · have hfx : (⌊x⌋ : ℚ) = (⌊y⌋ : ℚ) := by exact_mod_cast heq
    simp only [roundHalfEven, heq, hfx]
    split_ifs <;> linarith

lemma pyRound_mono {x y : ℚ} (n : ℕ) (h : x ≤ y) : pyRound x n ≤ pyRound y n := by
  unfold pyRound
  have h1 : x * 10 ^ n ≤ y * 10 ^ n := by
    have : (0 : ℚ) ≤ 10 ^ n := by positivity
    exact mul_le_mul_of_nonneg_right h this
  have h2 : (roundHalfEven (x * 10 ^ n) : ℚ) ≤ (roundHalfEven (y * 10 ^ n) : ℚ) := by
    exact_mod_cast roundHalfEven_mono h1
  have h3 : (0 : ℚ) < 10 ^ n := by positivity
  exact div_le_div_of_nonneg_right h2 (le_of_lt h3)

lemma pyRound_two_round_three (q : ℚ) : pyRound (pyRound q 2) 3 = pyRound q 2 := by
  unfold pyRound
  have h1 : (roundHalfEven (q * 10 ^ 2) : ℚ) / 10 ^ 2 * 10 ^ 3 =
      ((roundHalfEven (q * 10 ^ 2) * 10 : ℤ) : ℚ) := by
    push_cast
    ring
  rw [h1, roundHalfEven_intCast]
  push_cast
  ring

/-! ### Repair pass characterization -/

lemma fixGo_spec (l : List Packet) :
    ∀ (last : Option ℚ) (w : ℕ),
      (∀ p ∈ l, (p.pts).isNum = true) →
      fixGo l last w = .ok (fixedBySpec l last, w + strictDecreaseCount l) := by
  induction l with
  | nil => intro last w _; simp [fixGo, fixedBySpec, strictDecreaseCount]
  | cons p rest ih =>
    intro last w hnum
    cases rest with
    | nil => simp [fixGo, fixedBySpec, strictDecreaseCount]
    | cons q rest2 =>
      have hp : ∃ a, p.pts = PyVal.num a := by
        have := hnum p (by simp)
        cases hpp : p.pts <;> simp [hpp, PyVal.isNum] at this ⊢
      have hq : ∃ b, q.pts = PyVal.num b := by
        have := hnum q (by simp)
        cases hqq : q.pts <;> simp [hqq, PyVal.isNum] at this ⊢
      obtain ⟨a, hpa⟩ := hp
      obtain ⟨b, hqb⟩ := hq
      have hrest : ∀ x ∈ q :: rest2, (x.pts).isNum = true := by
        intro x hx
        exact hnum x (by simp [hx])
      have hih := ih (some (b - a)) (if b < a then w + 1 else w) hrest
      simp only [fixGo, hpa, hqb, pyLt, pySub, decide_eq_true_eq, hih, fixedBySpec,
        strictDecreaseCount, ptsQ, Except.ok.injEq, Prod.mk.injEq]
      refine ⟨trivial, ?_⟩
      split_ifs <;> omega

/-- C4 (amended): in the duration repair pass over packets with numeric
presentation times, no exception is raised; the forward-difference delta
(possibly zero or negative) is assigned unclamped to every non-final
packet; and the non-fatal warning fires exactly for the adjacent pairs
whose presentation time STRICTLY decreases (`next < current`) — an
adjacent pair with equal presentation times does NOT emit a warning. -/
theorem fix_durations_characterization (l : List Packet) (hne : l ≠ [])
    (hnum : ∀ p ∈ l, (p.pts).isNum = true) :
    fixDurations l = .ok (fixedBySpec l none, strictDecreaseCount l) := by
  cases l with
  | nil => exact absurd rfl hne
  | cons p rest =>
    have := fixGo_spec (p :: rest) none 0 hnum
    simpa [fixDurations] using this

/-- Witness for `fix_durations_characterization` at a concrete
two-packet input with strictly decreasing pts (one warning fired). -/
theorem fix_durations_characterization_witness :
    fixDurations
        [{ n := 1, frame_type := "I", pts := .num 7, size := 500, duration := .strNaN },
         { n := 2, frame_type := "Non-I", pts := .num 3, size := 500, duration := .strNaN }] =
      .ok ([{ n := 1, frame_type := "I", pts := .num 7, size := 500, duration := .num (-4) },
            { n := 2, frame_type := "Non-I", pts := .num 3, size := 500, duration := .num (-4) }], 1) := by
  have h := fix_durations_characterization
    [{ n := 1, frame_type := "I", pts := .num 7, size := 500, duration := .strNaN },
     { n := 2, frame_type := "Non-I", pts := .num 3, size := 500, duration := .strNaN }]
    (by simp)
    (by
      intro p hp
      simp only [List.mem_cons, List.not_mem_nil, or_false] at hp
      rcases hp with h1 | h1 <;> subst h1 <;> simp [PyVal.isNum])
  rw [h]
  norm_num [fixedBySpec, strictDecreaseCount, ptsQ]

/-- C4 counterexample: on an adjacent pair with EQUAL presentation times
(`next ≤ current` but not `<`), the repair pass emits NO warning (count 0)
— refuting the claim that every non-increasing pair warns — while still
assigning the zero delta and raising no exception. -/
theorem fix_durations_equal_pts_no_warning :
    fixDurations exC4in = .ok (exC4out, 0) ∧
    exC4in.map ptsQ = [5, 5] := by
  constructor
  · norm_num [fixDurations, fixGo, pyLt, pySub, exC4in, exC4out]
  · norm_num [exC4in, ptsQ]

/-- C3 (code bug): the normalizer does NOT always produce numeric
durations.  When only some records declare a duration, the packets that
inherit the default receive the raw JSON STRING value (`strNum`), not a
float — the later `sum()` over durations then raises `TypeError`.  And
when no record declares a duration and the input is a single packet, the
repair pass assigns Python `None`.  The map over `PyVal.isNum` makes the
non-numeric positions explicit. -/
theorem normalizer_string_duration :
    calculateFrameSizes exC3info = .ok (exC3packets, 0) ∧
    exC3packets.map (fun p => (p.duration).isNum) = [true, false] ∧
    calculateFrameSizes exC3single = .ok (exC3singleOut, 0) ∧
    exC3singleOut.map (fun p => (p.duration).isNum) = [false] := by
  refine ⟨?_, by norm_num [exC3packets, PyVal.isNum], ?_, by norm_num [exC3singleOut, PyVal.isNum]⟩
  · norm_num [calculateFrameSizes, defaultDuration, mkPackets, mkPacket, exC3info, exC3packets,
      show (("K_" : String) = "K_") = True from by simp only [String.reduceEq],
      show (("__" : String) = "K_") = False from by simp only [String.reduceEq]]
  · norm_num [calculateFrameSizes, defaultDuration, mkPackets, mkPacket, fixDurations, fixGo,
      exC3single, exC3singleOut,
      show (("K_" : String) = "K_") = True from by simp only [String.reduceEq]]

/-! ### C5, C6, C9, C10 -/

/-- C5: for every chunk of at least two packets whose consecutive
presentation-time deltas sum to zero, the chunk bitrate calculation
evaluates to the `ZeroDivisionError` error outcome — never to a numeric
bitrate.  (In the Python source the error arises from the division
`((size * 8) / 1000) / sum_delta_time` itself, whose zero-denominator
behaviour the explicit `pyDiv` branch models.) -/
theorem bitrate_zero_delta_error (l : List Packet) (h1 : 1 < l.length)
    (h0 : sumDeltaTime (l.map fun p => p.pts) = .ok 0) :
    bitrateForFrameList l = .error .zeroDivisionError := by
  have hb : bitrateOfChunk l = .error .zeroDivisionError := by
    simp [bitrateOfChunk, h0, pyDiv]
  simp [bitrateForFrameList, h1, hb]

/-- Witness for `bitrate_zero_delta_error` at a concrete two-packet chunk
with coinciding presentation times. -/
theorem bitrate_zero_delta_error_witness :
    bitrateForFrameList exC5chunk = .error .zeroDivisionError :=
  bitrate_zero_delta_error exC5chunk (by norm_num [exC5chunk])
    (by norm_num [exC5chunk, sumDeltaTime, pyFloat])

/-- C6: whenever the chunk bitrate series left after the `>= 2`-packet
filter is empty, the statistics pipeline produces no summary record (the
result is an error — in the source, `max()` of the empty series raises
`ValueError`, or an earlier stage has already raised); min/max are never
silently reported as zero. -/
theorem empty_chunk_series_no_record (frames : List Packet) (cfg : Config)
    (h : collectChunks frames cfg.aggregation cfg.chunk_size = .ok []) :
    (statsFromFrames frames cfg).toOption = none := by
  simp only [statsFromFrames]
  cases h1 : calculateDuration frames with
  | error e => rfl
  | ok duration =>
    cases h2 : calculateFps frames duration with
    | error e => simp [h2, Except.toOption]
    | ok fps => simp [h2, h, calculateMaxMinBitrate, pyMax, Except.toOption]

/-- Witness for `empty_chunk_series_no_record`: a single-packet input in
time mode yields an empty series and no record (spec Scenario D). -/
theorem empty_chunk_series_no_record_witness :
    (statsFromFrames exC6frames exCfgTime).toOption = none :=
  empty_chunk_series_no_record exC6frames exCfgTime (by
    norm_num [collectChunks, aggregationChunks, timeChunks, timeChunksGo, pyFloat,
      bitrateSeries, exC6frames, exCfgTime,
      show (("time" : String) = "gop") = False from by simp only [String.reduceEq]])

/-- C9 (code bug): configuration validation accepts `chunk_size = 0`.
The guard `if chunk_size and chunk_size < 0` skips the check entirely
when `chunk_size` is falsy (zero), even though the accompanying error
message demands a chunk size "greater than 0"; negative values are
rejected and positive values accepted as expected. -/
theorem zero_chunk_size_accepted :
    configAccepted "video" "time" 0 = true ∧
    configAccepted "video" "time" (-1) = false ∧
    configAccepted "video" "time" 1 = true := by
  refine ⟨?_, ?_, ?_⟩ <;>
    norm_num [configAccepted,
      show (("video" : String) = "audio") = False from by simp only [String.reduceEq],
      show (("video" : String) = "video") = True from by simp only [String.reduceEq],
      show (("time" : String) = "time") = True from by simp only [String.reduceEq],
      show (("time" : String) = "gop") = False from by simp only [String.reduceEq]]

/-- C10: the global fps computation divides by the rounded total duration
without any guard: whenever the packet durations sum to a value that
rounds to zero, the statistics pipeline stops with `ZeroDivisionError`
and produces no summary record. -/
theorem zero_duration_division_error (frames : List Packet) (cfg : Config) (s : ℚ)
    (hs : pySumVal (frames.map fun p => p.duration) = .ok s)
    (hz : pyRound s 2 = 0) :
    statsFromFrames frames cfg = .error .zeroDivisionError := by
  have hd : calculateDuration frames = .ok 0 := by
    simp [calculateDuration, hs, hz]
  simp [statsFromFrames, hd, calculateFps, pyDiv]

/-- Witness for `zero_duration_division_error` at a concrete two-packet
input with all-zero durations. -/
theorem zero_duration_division_error_witness :
    statsFromFrames exC10frames exCfgTime = .error .zeroDivisionError :=
  zero_duration_division_error exC10frames exCfgTime 0
    (by norm_num [exC10frames, pySumVal])
    (by norm_num [pyRound, roundHalfEven])

/-! ### Mean and max over the chunk series -/

lemma le_foldl_max (x : ℚ) (xs : List ℚ) : x ≤ xs.foldl max x := by
  induction xs generalizing x with
  | nil => simp
  | cons y ys ih =>
    simp only [List.foldl_cons]
    calc x ≤ max x y := le_max_left x y
      _ ≤ ys.foldl max (max x y) := ih (max x y)

lemma mem_le_foldl_max (x : ℚ) (xs : List ℚ) :
    ∀ y ∈ xs, y ≤ xs.foldl max x := by
  induction xs generalizing x with
  | nil => simp
  | cons z zs ih =>
    intro y hy
    rcases List.mem_cons.mp hy with hz | hmem
    · subst hz
      simp only [List.foldl_cons]
      calc y ≤ max x y := le_max_right x y
        _ ≤ zs.foldl max (max x y) := le_foldl_max (max x y) zs
    · simp only [List.foldl_cons]
      exact ih (max x z) y hmem

lemma npMean_le_pyMax (chunks : List ℚ) (M : ℚ) (h : pyMax chunks = .ok M) :
    npMean chunks ≤ M := by
  cases chunks with
  | nil => simp [pyMax] at h
  | cons x xs =>
    simp only [pyMax, Except.ok.injEq] at h
    subst h
    have hbound : ∀ y ∈ x :: xs, y ≤ xs.foldl max x := by
      intro y hy
      rcases List.mem_cons.mp hy with hz | hmem
      · subst hz; exact le_foldl_max y xs
      · exact mem_le_foldl_max x xs y hmem
    have hsum := List.sum_le_card_nsmul (x :: xs) (xs.foldl max x) hbound
    rw [nsmul_eq_mul] at hsum
    have hl : (0 : ℚ) < ((x :: xs).length : ℚ) := by
      exact_mod_cast Nat.succ_pos xs.length
    rw [npMean, div_le_iff₀ hl, mul_comm]
    exact hsum

/-! ### Pipeline destructuring -/

lemma calculateMaxMinBitrate_max (chunks : List ℚ) (maxB minB : ℚ)
    (h : calculateMaxMinBitrate chunks = .ok (maxB, minB)) :
    pyMax chunks = .ok maxB := by
  unfold calculateMaxMinBitrate at h
  cases hm : pyMax chunks with
  | error e => simp [hm] at h
  | ok m =>
    simp only [hm] at h
    cases hn : pyMin chunks with
    | error e => simp [hn] at h
    | ok n =>
      simp only [hn, Except.ok.injEq, Prod.mk.injEq] at h
      rw [h.1]

/-- Every way the pipeline can deliver a record fixes the record's fields
from the intermediate values; this lemma extracts the facts needed for
the C7/C8 theorems. -/
lemma statsFromFrames_ok (frames : List Packet) (cfg : Config) (rec : SummaryRecord)
    (h : statsFromFrames frames cfg = .ok rec) :
    ∃ duration chunks maxB minB avgB factor,
      calculateDuration frames = .ok duration ∧
      collectChunks frames cfg.aggregation cfg.chunk_size = .ok chunks ∧
      calculateMaxMinBitrate chunks = .ok (maxB, minB) ∧
      pyDiv ((sumSizes frames * 8 : ℚ) / 1000) duration = .ok avgB ∧
      pyDiv maxB avgB = .ok factor ∧
      rec.avg_bitrate_over_chunks = pyRound (npMean chunks) 3 ∧
      rec.max_bitrate = pyRound maxB 3 ∧
      rec.duration = pyRound duration 3 := by
  unfold statsFromFrames at h
  cases h1 : calculateDuration frames with
  | error e => simp [h1] at h
  | ok duration =>
    simp only [h1] at h
    cases h2 : calculateFps frames duration with
    | error e => simp [h2] at h
    | ok fps =>
      simp only [h2] at h
      cases h3 : collectChunks frames cfg.aggregation cfg.chunk_size with
      | error e => simp [h3] at h
      | ok chunks =>
        simp only [h3] at h
        cases h4 : calculateMaxMinBitrate chunks with
        | error e => simp [h4] at h
        | ok mm =>
          obtain ⟨maxB, minB⟩ := mm
          simp only [h4] at h
          unfold assembleBitrateStatistics at h
          cases h5 : pyDiv ((sumSizes frames * 8 : ℚ) / 1000) duration with
          | error e => simp [h5] at h
          | ok avgB =>
            simp only [h5] at h
            cases h6 : pyDiv maxB avgB with
            | error e => simp [h6] at h
            | ok factor =>
              simp only [h6, Except.ok.injEq] at h
              subst h
              exact ⟨duration, chunks, maxB, minB, avgB, factor,
                rfl, rfl, h4, h5, h6, rfl, rfl, rfl⟩

/-! ### C7 -/

/-- C7 (amended): whenever the statistics pipeline succeeds, the record's
`max_bitrate` is at least its `avg_bitrate_over_chunks` (max of the chunk
series bounds its mean, and 3-decimal rounding is monotone).  The claimed
`max_bitrate_factor >= 1` does NOT hold in general, because `avg_bitrate`
divides by the summed declared durations while chunk bitrates divide by
presentation-time spans. -/
theorem max_ge_mean_over_chunks (frames : List Packet) (cfg : Config)
    (rec : SummaryRecord) (h : statsFromFrames frames cfg = .ok rec) :
    rec.avg_bitrate_over_chunks ≤ rec.max_bitrate := by
  obtain ⟨duration, chunks, maxB, minB, avgB, factor,
    h1, h3, h4, h5, h6, havg, hmaxf, hdur⟩ := statsFromFrames_ok frames cfg rec h
  rw [havg, hmaxf]
  exact pyRound_mono 3 (npMean_le_pyMax chunks maxB (calculateMaxMinBitrate_max chunks maxB minB h4))

/-- Witness for `max_ge_mean_over_chunks` at the concrete record produced
on `exFramesA`. -/
theorem max_ge_mean_over_chunks_witness :
    exRecA.avg_bitrate_over_chunks ≤ exRecA.max_bitrate :=
  max_ge_mean_over_chunks exFramesA exCfgTime exRecA (by
    norm_num [statsFromFrames, calculateDuration, pySumVal, pyRound, roundHalfEven,
      calculateFps, pyDiv, collectChunks, aggregationChunks, timeChunks, timeChunksGo,
      pyFloat, bitrateSeries, bitrateOfChunk, sumDeltaTime, sumSizes,
      calculateMaxMinBitrate, pyMax, pyMin, assembleBitrateStatistics, npMean,
      exFramesA, exCfgTime, exRecA,
      show (("time" : String) = "gop") = False from by simp only [String.reduceEq]])

/-- C7 counterexample: a concrete full-pipeline run (raw records through
`calculateStatistics`) that succeeds with a positive `avg_bitrate` and a
non-empty chunk series, yet `max_bitrate_factor = 0.15 < 1` — refuting
`max_bitrate_factor >= 1.0`.  The chunk bitrate (12 kbit/s over the 2 s
pts span) is smaller than the global `avg_bitrate` (80 kbit/s over the
0.3 s duration sum). -/
theorem max_bitrate_factor_lt_one_example :
    calculateStatistics exInfoA exCfgTime = .ok exRecA ∧
    exRecA.max_bitrate_factor < 1 ∧
    0 < exRecA.avg_bitrate ∧
    exRecA.bitrate_per_chunk ≠ [] := by
  refine ⟨?_, by norm_num [exRecA], by norm_num [exRecA], by norm_num [exRecA]⟩
  norm_num [calculateStatistics, calculateFrameSizes, defaultDuration, mkPackets, mkPacket,
    statsFromFrames, calculateDuration, pySumVal, pyRound, roundHalfEven,
    calculateFps, pyDiv, collectChunks, aggregationChunks, timeChunks, timeChunksGo,
    pyFloat, bitrateSeries, bitrateOfChunk, sumDeltaTime, sumSizes, calculateMaxMinBitrate,
    pyMax, pyMin, assembleBitrateStatistics, npMean, exInfoA, exCfgTime, exRecA,
    show (("time" : String) = "gop") = False from by simp only [String.reduceEq],
    show (("__" : String) = "K_") = False from by simp only [String.reduceEq],
    show (("K_" : String) = "K_") = True from by simp only [String.reduceEq]]

/-! ### C8 -/

/-- C8 (amended): whenever the statistics pipeline succeeds, the
`duration` field of the summary record equals the duration sum rounded to
2 decimal places (`_calculate_duration` hard-codes `round(..., 2)`; the
final `round(..., 3)` in the record assembly is then a no-op), NOT the
3-decimal rounding of the sum. -/
theorem duration_field_round_two (frames : List Packet) (cfg : Config)
    (rec : SummaryRecord) (s : ℚ)
    (h : statsFromFrames frames cfg = .ok rec)
    (hs : pySumVal (frames.map fun p => p.duration) = .ok s) :
    rec.duration = pyRound s 2 := by
  obtain ⟨duration, chunks, maxB, minB, avgB, factor,
    h1, h3, h4, h5, h6, havg, hmaxf, hdur⟩ := statsFromFrames_ok frames cfg rec h
  have hd : duration = pyRound s 2 := by
    unfold calculateDuration at h1
    simp only [hs, Except.ok.injEq] at h1
    exact h1.symm
  rw [hdur, hd, pyRound_two_round_three]

/-- Witness for `duration_field_round_two` at the concrete `exC8frames`
input (duration sum 0.124, record field 0.12). -/
theorem duration_field_round_two_witness :
    exRecC8.duration = pyRound (31/250) 2 :=
  duration_field_round_two exC8frames exCfgTime exRecC8 (31/250)
    (by
      norm_num [statsFromFrames, calculateDuration, pySumVal, pyRound, roundHalfEven,
        calculateFps, pyDiv, collectChunks, aggregationChunks, timeChunks, timeChunksGo,
        pyFloat, bitrateSeries, bitrateOfChunk, sumDeltaTime, sumSizes,
        calculateMaxMinBitrate, pyMax, pyMin, assembleBitrateStatistics, npMean,
        exC8frames, exCfgTime, exRecC8,
        show (("time" : String) = "gop") = False from by simp only [String.reduceEq]])
    (by norm_num [exC8frames, pySumVal])

/-- C8 counterexample: a concrete full-pipeline run whose packet
durations sum to 0.124 s; the record's `duration` field is 0.12 (the
hard-coded 2-decimal rounding in `_calculate_duration`), which differs
from the claimed 3-decimal rounding 0.124 of the sum. -/
theorem duration_rounding_counterexample :
    calculateStatistics exC8info exCfgTime = .ok exRecC8 ∧
    calculateFrameSizes exC8info = .ok (exC8frames, 0) ∧
    pySumVal (exC8frames.map fun p => p.duration) = .ok (31/250) ∧
    exRecC8.duration ≠ pyRound (31/250) 3 := by
  refine ⟨?_, ?_, by norm_num [exC8frames, pySumVal], ?_⟩
  · norm_num [calculateStatistics, calculateFrameSizes, defaultDuration, mkPackets, mkPacket,
      statsFromFrames, calculateDuration, pySumVal, pyRound, roundHalfEven,
      calculateFps, pyDiv, collectChunks, aggregationChunks, timeChunks, timeChunksGo,
      pyFloat, bitrateSeries, bitrateOfChunk, sumDeltaTime, sumSizes, calculateMaxMinBitrate,
      pyMax, pyMin, assembleBitrateStatistics, npMean, exC8info, exCfgTime, exRecC8,
      show (("time" : String) = "gop") = False from by simp only [String.reduceEq],
      show (("__" : String) = "K_") = False from by simp only [String.reduceEq],
      show (("K_" : String) = "K_") = True from by simp only [String.reduceEq]]
  · norm_num [calculateFrameSizes, defaultDuration, mkPackets, mkPacket, exC8info, exC8frames,
      show (("__" : String) = "K_") = False from by simp only [String.reduceEq],
      show (("K_" : String) = "K_") = True from by simp only [String.reduceEq]]
  · norm_num [exRecC8, pyRound, roundHalfEven]

end BitrateStats
